import Mathlib

/-!
Verification of the evaluation-run execution engine and UI-layer helpers of
the ai_dev_platform repository. The repository ships the REST client
(src/lib/api.ts), the React hooks (src/hooks, src/unnamed/part_004) and the
API documentation; the engine behind the HTTP endpoints is specified in
spec.md (sections 4, 5, 7) and is modelled here from those words. The
client-side functions are embedded directly from the TypeScript source.
-/

namespace AIDev

/-- Run status enum, from `ExperimentRun.status` in src/lib/api.ts:
`'pending' | 'running' | 'completed' | 'failed' | 'cancelled'`. -/
inductive RunStatus where
  | pending
  | running
  | completed
  | failed
  | cancelled
deriving DecidableEq

/-- A status from which the spec allows no further transition
(spec section 4.1: terminal states are completed, failed, cancelled). -/
def isTerminal : RunStatus → Bool
  | RunStatus.pending => false
  | RunStatus.running => false
  | RunStatus.completed => true
  | RunStatus.failed => true
  | RunStatus.cancelled => true

/-- Modelled from the spec: the Run Controller's per-run state (spec section 3,
ExperimentRun; the controller itself is backend code not present under src/).
`remaining_items` counts enumerated dataset items not yet resolved; the
ExperimentRun record of src/lib/api.ts exposes the other fields. Timestamps
are abstract instants (Nat). -/
structure EngineState where
  status : RunStatus
  total_items : Nat
  completed_items : Nat
  failed_items : Nat
  remaining_items : Nat
  metrics : Option (List (String × ℚ))
  created_at : Nat
  started_at : Option Nat
  completed_at : Option Nat
  cancel_requested : Bool
deriving DecidableEq

/-- Modelled from the spec: the record a freshly created run starts from
(spec section 6, submit-run response: status pending, zero counts, null
metrics, created_at set, no started_at/completed_at). -/
def initialState (t : Nat) : EngineState :=
  { status := RunStatus.pending
    total_items := 0
    completed_items := 0
    failed_items := 0
    remaining_items := 0
    metrics := none
    created_at := t
    started_at := none
    completed_at := none
    cancel_requested := false }

/-- Modelled from the spec: one observable step of the Run Controller state
machine (spec sections 4.1, 5 and 7; the controller is backend code not under
src/). Item completions and failures are reported one at a time under the
single-writer discipline of section 5; a configuration or enumeration error
moves a pending run straight to failed (section 7); cancellation is
signalled by a flag and finalised once executors drain (section 5); cancel
on a terminal run is a no-op (section 4.1). -/
inductive Step : EngineState → EngineState → Prop where
  | enumerate (s : EngineState) (n : Nat) :
      s.status = RunStatus.pending → s.total_items = 0 →
      Step s { s with total_items := n, remaining_items := n }
  | start (s : EngineState) (t : Nat) :
      s.status = RunStatus.pending → 0 < s.remaining_items →
      Step s { s with status := RunStatus.running, started_at := some t }
  | itemCompleted (s : EngineState) :
      s.status = RunStatus.running → 0 < s.remaining_items →
      Step s { s with completed_items := s.completed_items + 1,
                      remaining_items := s.remaining_items - 1 }
  | itemFailed (s : EngineState) :
      s.status = RunStatus.running → 0 < s.remaining_items →
      Step s { s with failed_items := s.failed_items + 1,
                      remaining_items := s.remaining_items - 1 }
  | finishCompleted (s : EngineState) (t : Nat) (m : List (String × ℚ)) :
      s.status = RunStatus.running → s.remaining_items = 0 →
      s.cancel_requested = false →
      Step s { s with status := RunStatus.completed,
                      metrics := some m, completed_at := some t }
  | failPending (s : EngineState) (t : Nat) :
      s.status = RunStatus.pending →
      Step s { s with status := RunStatus.failed, completed_at := some t }
  | requestCancel (s : EngineState) :
      s.status = RunStatus.pending ∨ s.status = RunStatus.running →
      Step s { s with cancel_requested := true }
  | cancelTerminalNoop (s : EngineState) :
      isTerminal s.status = true →
      Step s s
  | finishCancelled (s : EngineState) (t : Nat) :
      s.cancel_requested = true →
      s.status = RunStatus.pending ∨ s.status = RunStatus.running →
      Step s { s with status := RunStatus.cancelled, completed_at := some t }

/-- The states the engine can actually be in: reachable from a freshly
created run by Run Controller steps. -/
inductive Reachable : EngineState → Prop where
  | init (t : Nat) : Reachable (initialState t)
  | step {s u : EngineState} : Reachable s → Step s u → Reachable u

/-- The inductive invariant of the run state machine: resolved plus pending
items account for exactly the enumerated total, and `completed_at` is set
exactly on the terminal states. -/
def EngineInv (s : EngineState) : Prop :=
  s.completed_items + s.failed_items + s.remaining_items = s.total_items
  ∧ (isTerminal s.status = true ↔ s.completed_at ≠ none)

/-- Position of a status along the one-directional lifecycle of spec
section 4.1: pending before running before any terminal state. -/
def statusRank : RunStatus → Nat
  | RunStatus.pending => 0
  | RunStatus.running => 1
  | RunStatus.completed => 2
  | RunStatus.failed => 2
  | RunStatus.cancelled => 2

/-- The transition set exactly as claim C2 words it: every status-changing
step is pending to running, or running to a terminal state. -/
def ClaimedChainOnly : Prop :=
  ∀ s u : EngineState, Reachable s → Step s u → s.status ≠ u.status →
    (s.status = RunStatus.pending ∧ u.status = RunStatus.running)
    ∨ (s.status = RunStatus.running ∧ isTerminal u.status = true)

/-- Modelled from the spec: the Run Controller's `cancel` contract (spec
section 4.1; the controller is backend code not under src/). On a pending or
running run it signals cancellation (sets the cooperative flag of section 5)
and the cancel endpoint reports status cancelled (API doc in
src/unnamed/part_000); on a terminal run it is a no-op reporting the
existing terminal status. -/
def cancelStep (s : EngineState) : EngineState × RunStatus :=
  if isTerminal s.status then (s, s.status)
  else ({ s with cancel_requested := true }, RunStatus.cancelled)

/-- Errors the engine surfaces to the API layer (spec section 7). -/
inductive ApiError where
  | notFound
  | configurationError
deriving DecidableEq

/-- Per-item evaluation record, from the `evaluation_results` entries of
`getExperimentRunResults` in src/lib/api.ts; an evaluator that errored
contributes a `none` score (spec section 4.2). -/
structure EvaluationResult where
  dataset_item_id : Nat
  output_data : Option String
  metrics : List (String × Option ℚ)
  is_success : Bool
  error_message : Option String
deriving DecidableEq

/-- Modelled from the spec: the Run Registry (spec section 2), the queryable
store of runs and their evaluation results keyed by run id; backend code not
under src/. -/
structure RunRegistry where
  runs : List (String × EngineState)
  results : List (String × List EvaluationResult)

def lookupRun (reg : RunRegistry) (runId : String) : Option EngineState :=
  (reg.runs.find? (fun p => p.1 == runId)).map (fun p => p.2)

def resultsFor (reg : RunRegistry) (runId : String) : List EvaluationResult :=
  ((reg.results.find? (fun p => p.1 == runId)).map (fun p => p.2)).getD []

/-- Modelled from the spec: progress as the status endpoint computes it
(spec section 4.1: completed_items / total_items * 100, 0 when total_items
is 0; backend code not under src/). -/
def progressPercentage (s : EngineState) : ℚ :=
  if s.total_items = 0 then 0
  else ((s.completed_items : ℚ) * 100) / (s.total_items : ℚ)

/-- The status payload of `getExperimentRunStatus` in src/lib/api.ts. -/
structure RunStatusView where
  run_id : String
  status : RunStatus
  total_items : Nat
  completed_items : Nat
  failed_items : Nat
  progress_percentage : ℚ
  created_at : Nat
  started_at : Option Nat
  completed_at : Option Nat

/-- Modelled from the spec: `getStatus(runId)` of the Run Controller (spec
section 4.1; backend code not under src/): NotFoundError for an unknown run,
otherwise counts, progress and timestamps. -/
def getStatus (reg : RunRegistry) (runId : String) :
    Except ApiError RunStatusView :=
  match lookupRun reg runId with
  | none => Except.error ApiError.notFound
  | some run =>
      Except.ok
        { run_id := runId
          status := run.status
          total_items := run.total_items
          completed_items := run.completed_items
          failed_items := run.failed_items
          progress_percentage := progressPercentage run
          created_at := run.created_at
          started_at := run.started_at
          completed_at := run.completed_at }

/-- The results payload of `getExperimentRunResults` in src/lib/api.ts. -/
structure RunResults where
  run_id : String
  status : RunStatus
  metrics : Option (List (String × ℚ))
  total_items : Nat
  completed_items : Nat
  failed_items : Nat
  evaluation_results : List EvaluationResult

/-- Modelled from the spec: `getResults(runId)` of the Run Controller (spec
sections 4.1 and 7; backend code not under src/): NotFoundError for an
unknown run, otherwise the results produced so far, whatever the run's
status — partial results stay queryable after failure or cancellation. -/
def getResults (reg : RunRegistry) (runId : String) :
    Except ApiError RunResults :=
  match lookupRun reg runId with
  | none => Except.error ApiError.notFound
  | some run =>
      Except.ok
        { run_id := runId
          status := run.status
          metrics := run.metrics
          total_items := run.total_items
          completed_items := run.completed_items
          failed_items := run.failed_items
          evaluation_results := resultsFor reg runId }

/-- Modelled from the spec: the parts of an experiment's configuration that
run submission validates (spec sections 4.1 and 4.3): a resolvable model
configuration and evaluator names known to the registry. -/
structure ExperimentConfig where
  model_known : Bool
  evaluator_names : List String

/-- Modelled from the spec: submission-time validation (spec section 4.3:
evaluator configurations are resolved by name at run-submission time). -/
def resolvableConfig (registry : List String) (cfg : ExperimentConfig) : Bool :=
  cfg.model_known && cfg.evaluator_names.all (fun n => registry.contains n)

/-- Modelled from the spec: `submit(experiment)` of the Run Controller (spec
sections 4.1 and 6; backend code not under src/). An unresolvable
configuration fails with ConfigurationError; otherwise the caller
immediately gets the freshly created pending record, enumeration and
execution being later `Step`s off the caller's path. -/
def submit (registry : List String) (cfg : ExperimentConfig) (t : Nat) :
    Except ApiError EngineState :=
  if resolvableConfig registry cfg then Except.ok (initialState t)
  else Except.error ApiError.configurationError

/-- Modelled from the spec: one Model Invoker attempt's outcome (spec
section 4.2; the invoker is backend code not under src/). -/
inductive InvokeOutcome where
  | success (output : String)
  | timeout
  | transient (message : String)
deriving DecidableEq

/-- The error recorded for a terminating invoker failure (spec section 7). -/
def errorOf : InvokeOutcome → Option String
  | InvokeOutcome.success _ => none
  | InvokeOutcome.timeout => some "InvokerTimeoutError: model invocation timed out"
  | InvokeOutcome.transient m => some m

/-- Modelled from the spec: the retry loop of Job Unit execution (spec
section 4.2; backend code not under src/). The same JobUnit is re-executed —
never re-enqueued — up to `retriesLeft` more times; the pair returned is the
final outcome and the number of invocation attempts performed. -/
def runAttempts (invoker : Nat → InvokeOutcome) :
    Nat → Nat → InvokeOutcome × Nat
  | attempt, 0 => (invoker attempt, 1)
  | attempt, retriesLeft + 1 =>
      match invoker attempt with
      | InvokeOutcome.success o => (InvokeOutcome.success o, 1)
      | _ =>
          let p := runAttempts invoker (attempt + 1) retriesLeft
          (p.1, p.2 + 1)

/-- Modelled from the spec: execution of one dataset item (spec section 4.2;
backend code not under src/): invoke under the retry bound `max_retries`, on
success run every configured evaluator over the output, on exhausted retries
record a failed EvaluationResult with the terminating error. Returns the
recorded result and the number of invocation attempts. -/
def executeItem (invoker : Nat → InvokeOutcome)
    (evaluators : List (String × (String → Option ℚ)))
    (maxRetries : Nat) (itemId : Nat) : EvaluationResult × Nat :=
  let p := runAttempts invoker 0 maxRetries
  match p.1 with
  | InvokeOutcome.success o =>
      ({ dataset_item_id := itemId
         output_data := some o
         metrics := evaluators.map (fun e => (e.1, e.2 o))
         is_success := true
         error_message := none }, p.2)
  | out =>
      ({ dataset_item_id := itemId
         output_data := none
         metrics := []
         is_success := false
         error_message := errorOf out }, p.2)

/-- The shape of a fetch Response as `ApiClient.request` in src/lib/api.ts
consumes it: ok flag, HTTP status, the success-path JSON parse of the body
(`none` when `response.json()` throws, with the thrown message), and the
`detail` field the error path reads after `response.json().catch(() => \x7b\x7d)`
(`none` when the body fails to parse or carries no detail). -/
structure HttpResponseShape (T : Type) where
  ok : Bool
  status : Nat
  parsedBody : Option T
  parseErrorMessage : String
  errorDetail : Option String

/-- What the underlying `fetch` in `ApiClient.request` can do: reject with
an Error carrying a message, throw a non-Error value, or resolve to a
response. -/
inductive FetchOutcome (T : Type) where
  | fetchRejected (message : String)
  | thrownNonError
  | response (r : HttpResponseShape T)

/-- The `ApiResponse` interface of src/lib/api.ts: optional data, optional
error message. -/
structure ApiResponse (T : Type) where
  data : Option T
  error : Option String
deriving DecidableEq

/-- The fallback error text of `ApiClient.request` in src/lib/api.ts. -/
def httpErrorMessage (status : Nat) : String :=
  "HTTP error! status: " ++ toString status

/-- Embedding of `ApiClient.request` (src/lib/api.ts lines 139-172): on a
non-ok response it throws `new Error(errorData.detail || fallback)` — under
JavaScript truthiness an absent or empty `detail` falls back — and every
throw is caught and returned as an error message, so the caller always
receives an ApiResponse. -/
def request (T : Type) : FetchOutcome T → ApiResponse T
  | FetchOutcome.fetchRejected m => { data := none, error := some m }
  | FetchOutcome.thrownNonError =>
      { data := none, error := some "An unknown error occurred" }
  | FetchOutcome.response r =>
      if r.ok then
        match r.parsedBody with
        | some d => { data := some d, error := none }
        | none => { data := none, error := some r.parseErrorMessage }
      else
        match r.errorDetail with
        | some d =>
            if d = "" then { data := none, error := some (httpErrorMessage r.status) }
            else { data := none, error := some d }
        | none => { data := none, error := some (httpErrorMessage r.status) }

/-- The error-message rule exactly as claim C8 words it: the detail field
whenever present, the HTTP fallback otherwise. -/
def ClaimedRequestErrorRule : Prop :=
  ∀ r : HttpResponseShape Unit, r.ok = false →
    (request Unit (FetchOutcome.response r)).error =
      some (Option.getD r.errorDetail (httpErrorMessage r.status))

/-- The `ExperimentRun` record of src/lib/api.ts as the runs list of
`useExperimentRuns` (src/unnamed/part_004) holds it. -/
structure RunRecord where
  id : String
  run_id : String
  status : RunStatus
  total_items : Nat
  completed_items : Nat
  failed_items : Nat
  metrics : Option (List (String × ℚ))
  experiment_id : Nat
  created_at : String
  started_at : Option String
  completed_at : Option String
deriving DecidableEq

/-- The cancel endpoint's response body in src/lib/api.ts
(`cancelExperimentRun`). -/
structure CancelResponseBody where
  message : String
  run_id : String
  status : String
deriving DecidableEq

/-- JavaScript truthiness of the `response.error` guard the hooks use
(`if (response.error) throw ...`): false for an absent or empty message. -/
def isTruthyError : Option String → Bool
  | none => false
  | some m => !m.isEmpty

/-- The `setRuns(prev => prev.map(...))` updater of `cancelRun` in
`useExperimentRuns` (src/unnamed/part_004 lines 152-156). -/
def cancelRunUpdate (runs : List RunRecord) (runId : String) : List RunRecord :=
  runs.map (fun run =>
    if run.id = runId then { run with status := RunStatus.cancelled } else run)

/-- The effect of one `cancelRun(runId)` call on the locally held runs list
(src/unnamed/part_004 lines 143-163): a truthy `response.error` throws
before `setRuns`, leaving the list untouched; otherwise the updater runs. -/
def cancelRunEffect (resp : ApiResponse CancelResponseBody)
    (runs : List RunRecord) (runId : String) : List RunRecord :=
  if isTruthyError resp.error then runs else cancelRunUpdate runs runId

/-- The frame condition exactly as claim C9 words it: whenever the API
response carries an error, the runs list is unchanged. -/
def ClaimedCancelErrorFrame : Prop :=
  ∀ (resp : ApiResponse CancelResponseBody) (runs : List RunRecord)
    (runId : String),
    resp.error.isSome = true → cancelRunEffect resp runs runId = runs

/-- The `PromptVersion` record of src/lib/api.ts as the versions list of
`usePromptVersions` (src/hooks/usePrompts.ts) holds it. -/
structure PromptVersionRec where
  id : Nat
  version : String
  template : String
  variables_ : Option String
  is_deployed : Bool
  prompt_id : Nat
  created_at : String
deriving DecidableEq

/-- The `setVersions(prev => prev.map(...))` updater of `deployVersion` in
`usePromptVersions` (src/hooks/usePrompts.ts lines 125-128): every version's
`is_deployed` becomes the test `v.version === version`. -/
def deployVersionUpdate (versions : List PromptVersionRec) (version : String) :
    List PromptVersionRec :=
  versions.map (fun v => { v with is_deployed := v.version == version })

def deployedCount (versions : List PromptVersionRec) : Nat :=
  versions.countP (fun v => v.is_deployed)

/-- The property exactly as claim C10 words it: after deploying, a version
is marked deployed iff its version string matches, and at most one version
is marked deployed. -/
def ClaimedAtMostOneDeployed : Prop :=
  ∀ (versions : List PromptVersionRec) (version : String),
    (∀ v2 ∈ deployVersionUpdate versions version,
        v2.is_deployed = true ↔ v2.version = version)
    ∧ deployedCount (deployVersionUpdate versions version) ≤ 1

/-- A mid-flight running run, used to instantiate the status query. -/
def stRunning : EngineState :=
  { status := RunStatus.running
    total_items := 4
    completed_items := 1
    failed_items := 1
    remaining_items := 2
    metrics := none
    created_at := 0
    started_at := some 1
    completed_at := none
    cancel_requested := false }

def regStatus : RunRegistry :=
  { runs := [("run_1", stRunning)], results := [] }

/-- A cancelled run holding one partial result, used to instantiate the
results query. -/
def stCancelled : EngineState :=
  { status := RunStatus.cancelled
    total_items := 5
    completed_items := 1
    failed_items := 0
    remaining_items := 4
    metrics := none
    created_at := 0
    started_at := some 1
    completed_at := some 9
    cancel_requested := true }

def resParis : EvaluationResult :=
  { dataset_item_id := 1
    output_data := some "Paris"
    metrics := [("exact_match", some 1)]
    is_success := true
    error_message := none }

def regResults : RunRegistry :=
  { runs := [("run_9", stCancelled)], results := [("run_9", [resParis])] }

/-- A runs-list entry for the cancel-hook instantiations. -/
def runRecA : RunRecord :=
  { id := "run_1"
    run_id := "run_1"
    status := RunStatus.pending
    total_items := 5
    completed_items := 1
    failed_items := 0
    metrics := none
    experiment_id := 1
    created_at := "2024-01-01"
    started_at := none
    completed_at := none }

def runRecB : RunRecord :=
  { id := "run_2"
    run_id := "run_2"
    status := RunStatus.running
    total_items := 3
    completed_items := 2
    failed_items := 0
    metrics := none
    experiment_id := 1
    created_at := "2024-01-02"
    started_at := some "2024-01-02"
    completed_at := none }

/-- Two prompt versions sharing one version string. -/
def versionDupA : PromptVersionRec :=
  { id := 1
    version := "v1"
    template := "Hello"
    variables_ := none
    is_deployed := false
    prompt_id := 1
    created_at := "2024-01-01" }

def versionDupB : PromptVersionRec :=
  { id := 2
    version := "v1"
    template := "Hi"
    variables_ := none
    is_deployed := false
    prompt_id := 1
    created_at := "2024-01-02" }

def versionV2 : PromptVersionRec :=
  { id := 3
    version := "v2"
    template := "Hey"
    variables_ := none
    is_deployed := true
    prompt_id := 1
    created_at := "2024-01-03" }

theorem engineInv_initial (t : Nat) : EngineInv (initialState t) := by
  constructor
  · rfl
  · simp [initialState, isTerminal]

theorem engineInv_step {s u : EngineState} (hInv : EngineInv s) (hs : Step s u) :
    EngineInv u := by
  obtain ⟨hcount, hterm⟩ := hInv
  cases hs with
  | enumerate n hp h0 =>
      refine ⟨?_, ?_⟩
      · simp only []
        omega
      · simpa using hterm
  | start t hp hr =>
      refine ⟨by simpa using hcount, ?_⟩
      have : s.completed_at = none := by
        by_contra hne
        have := hterm.mpr hne
        rw [hp] at this
        simp [isTerminal] at this
      simp [isTerminal, this]
  | itemCompleted hp hr =>
      refine ⟨by simp only []; omega, by simpa using hterm⟩
  | itemFailed hp hr =>
      refine ⟨by simp only []; omega, by simpa using hterm⟩
  | finishCompleted t m hp hr hc =>
      refine ⟨by simpa using hcount, by simp [isTerminal]⟩
  | failPending t hp =>
      refine ⟨by simpa using hcount, by simp [isTerminal]⟩
  | requestCancel hp =>
      refine ⟨by simpa using hcount, by simpa using hterm⟩
  | cancelTerminalNoop hp =>
      exact ⟨hcount, hterm⟩
  | finishCancelled t hc hp =>
      refine ⟨by simpa using hcount, by simp [isTerminal]⟩

theorem reachable_inv {s : EngineState} (h : Reachable s) : EngineInv s := by
  induction h with
  | init t => exact engineInv_initial t
  | step _ hs ih => exact engineInv_step ih hs

theorem not_terminal_of_pending {s : EngineState}
    (h : s.status = RunStatus.pending) : isTerminal s.status = false := by
  rw [h]; rfl

theorem not_terminal_of_running {s : EngineState}
    (h : s.status = RunStatus.running) : isTerminal s.status = false := by
  rw [h]; rfl

/-- C1: at every reachable engine state, completed_items + failed_items is
at most total_items; along every step both counters are non-decreasing (in
particular while the run is non-terminal); and once completed_at is set, no
step changes either counter again. -/
theorem run_counts_invariant (s : EngineState) (h : Reachable s) :
    s.completed_items + s.failed_items ≤ s.total_items
    ∧ (∀ u : EngineState, Step s u →
        s.completed_items ≤ u.completed_items
        ∧ s.failed_items ≤ u.failed_items)
    ∧ (s.completed_at ≠ none → ∀ u : EngineState, Step s u →
        u.completed_items = s.completed_items
        ∧ u.failed_items = s.failed_items) := by
  obtain ⟨hcount, hterm⟩ := reachable_inv h
  refine ⟨by omega, ?_, ?_⟩
  · intro u hs
    cases hs with
    | enumerate n hp h0 => exact ⟨Nat.le_refl _, Nat.le_refl _⟩
    | start t hp hr => exact ⟨Nat.le_refl _, Nat.le_refl _⟩
    | itemCompleted hp hr => exact ⟨Nat.le_succ _, Nat.le_refl _⟩
    | itemFailed hp hr => exact ⟨Nat.le_refl _, Nat.le_succ _⟩
    | finishCompleted t m hp hr hc => exact ⟨Nat.le_refl _, Nat.le_refl _⟩
    | failPending t hp => exact ⟨Nat.le_refl _, Nat.le_refl _⟩
    | requestCancel hp => exact ⟨Nat.le_refl _, Nat.le_refl _⟩
    | cancelTerminalNoop hp => exact ⟨Nat.le_refl _, Nat.le_refl _⟩
    | finishCancelled t hc hp => exact ⟨Nat.le_refl _, Nat.le_refl _⟩
  · intro hca u hs
    have ht : isTerminal s.status = true := hterm.mpr hca
    cases hs with
    | enumerate n hp h0 => exact ⟨rfl, rfl⟩
    | start t hp hr => exact ⟨rfl, rfl⟩
    | itemCompleted hp hr => rw [not_terminal_of_running hp] at ht; cases ht
    | itemFailed hp hr => rw [not_terminal_of_running hp] at ht; cases ht
    | finishCompleted t m hp hr hc => exact ⟨rfl, rfl⟩
    | failPending t hp => exact ⟨rfl, rfl⟩
    | requestCancel hp => exact ⟨rfl, rfl⟩
    | cancelTerminalNoop hp => exact ⟨rfl, rfl⟩
    | finishCancelled t hc hp => exact ⟨rfl, rfl⟩

/-- Witness for C1: the invariant instantiated at the freshly created run. -/
theorem run_counts_invariant_check :
    Reachable (initialState 0)
    ∧ (initialState 0).completed_items + (initialState 0).failed_items ≤
        (initialState 0).total_items :=
  ⟨Reachable.init 0, (run_counts_invariant (initialState 0) (Reachable.init 0)).1⟩

/-- Counterexample for C2: the spec itself (section 7) moves a pending run
directly to failed on a configuration error, so status transitions are not
limited to pending → running and running → terminal. -/
theorem claimedChainOnly_false : ¬ ClaimedChainOnly := by
  intro h
  have hstep : Step (initialState 0)
      { initialState 0 with status := RunStatus.failed, completed_at := some 0 } :=
    Step.failPending (initialState 0) 0 rfl
  exact absurd (h (initialState 0) _ (Reachable.init 0) hstep (by decide)) (by decide)

/-- C2 (amended): status only ever moves forward along
pending → running → terminal; a status-changing step goes from pending to
running, failed or cancelled, or from running to a terminal state; a
terminal state is absorbing (its only successor is itself); and completed_at
is set exactly at the terminal states and never changes once set. -/
theorem run_state_machine_transitions (s u : EngineState)
    (hr : Reachable s) (hs : Step s u) :
    statusRank s.status ≤ statusRank u.status
    ∧ (s.status ≠ u.status →
        (s.status = RunStatus.pending ∧
          (u.status = RunStatus.running ∨ u.status = RunStatus.failed ∨
           u.status = RunStatus.cancelled))
        ∨ (s.status = RunStatus.running ∧ isTerminal u.status = true))
    ∧ (isTerminal s.status = true → u = s)
    ∧ (isTerminal u.status = true ↔ u.completed_at ≠ none)
    ∧ (s.completed_at ≠ none → u.completed_at = s.completed_at) := by
  have hinvS := reachable_inv hr
  have hinvU := engineInv_step hinvS hs
  refine ⟨?_, ?_, ?_, hinvU.2, ?_⟩
  · cases hs with
    | enumerate n hp h0 => exact Nat.le_refl _
    | start t hp hr2 => rw [hp]; exact Nat.zero_le _
    | itemCompleted hp hr2 => exact Nat.le_refl _
    | itemFailed hp hr2 => exact Nat.le_refl _
    | finishCompleted t m hp hr2 hc => rw [hp]; exact Nat.le_succ 1
    | failPending t hp => rw [hp]; exact Nat.zero_le _
    | requestCancel hp => exact Nat.le_refl _
    | cancelTerminalNoop hp => exact Nat.le_refl _
    | finishCancelled t hc hp =>
        rcases hp with hp | hp
        · rw [hp]; exact Nat.zero_le _
        · rw [hp]; exact Nat.le_succ 1
  · cases hs with
    | enumerate n hp h0 => intro hne; exact absurd rfl hne
    | start t hp hr2 => intro _; exact Or.inl ⟨hp, Or.inl rfl⟩
    | itemCompleted hp hr2 => intro hne; exact absurd rfl hne
    | itemFailed hp hr2 => intro hne; exact absurd rfl hne
    | finishCompleted t m hp hr2 hc => intro _; exact Or.inr ⟨hp, rfl⟩
    | failPending t hp => intro _; exact Or.inl ⟨hp, Or.inr (Or.inl rfl)⟩
    | requestCancel hp => intro hne; exact absurd rfl hne
    | cancelTerminalNoop hp => intro hne; exact absurd rfl hne
    | finishCancelled t hc hp =>
        intro _
        rcases hp with hp | hp
        · exact Or.inl ⟨hp, Or.inr (Or.inr rfl)⟩
        · exact Or.inr ⟨hp, rfl⟩
  · intro ht
    cases hs with
    | enumerate n hp h0 => rw [not_terminal_of_pending hp] at ht; cases ht
    | start t hp hr2 => rw [not_terminal_of_pending hp] at ht; cases ht
    | itemCompleted hp hr2 => rw [not_terminal_of_running hp] at ht; cases ht
    | itemFailed hp hr2 => rw [not_terminal_of_running hp] at ht; cases ht
    | finishCompleted t m hp hr2 hc => rw [not_terminal_of_running hp] at ht; cases ht
    | failPending t hp => rw [not_terminal_of_pending hp] at ht; cases ht
    | requestCancel hp =>
        rcases hp with hp | hp
        · rw [not_terminal_of_pending hp] at ht; cases ht
        · rw [not_terminal_of_running hp] at ht; cases ht
    | cancelTerminalNoop hp => rfl
    | finishCancelled t hc hp =>
        rcases hp with hp | hp
        · rw [not_terminal_of_pending hp] at ht; cases ht
        · rw [not_terminal_of_running hp] at ht; cases ht
  · intro hca
    have ht : isTerminal s.status = true := hinvS.2.mpr hca
    cases hs with
    | enumerate n hp h0 => rfl
    | start t hp hr2 => rfl
    | itemCompleted hp hr2 => rfl
    | itemFailed hp hr2 => rfl
    | finishCompleted t m hp hr2 hc => rw [not_terminal_of_running hp] at ht; cases ht
    | failPending t hp => rw [not_terminal_of_pending hp] at ht; cases ht
    | requestCancel hp => rfl
    | cancelTerminalNoop hp => rfl
    | finishCancelled t hc hp =>
        rcases hp with hp | hp
        · rw [not_terminal_of_pending hp] at ht; cases ht
        · rw [not_terminal_of_running hp] at ht; cases ht

/-- Witness for C2: the amended transition discipline at a concrete
cancellation-request step out of the initial state. -/
theorem run_state_machine_transitions_check :
    Reachable (initialState 0)
    ∧ Step (initialState 0) { initialState 0 with cancel_requested := true }
    ∧ statusRank (initialState 0).status ≤
        statusRank ({ initialState 0 with cancel_requested := true }).status :=
  ⟨Reachable.init 0, Step.requestCancel (initialState 0) (Or.inl rfl),
    (run_state_machine_transitions (initialState 0) _ (Reachable.init 0)
      (Step.requestCancel (initialState 0) (Or.inl rfl))).1⟩

/-- C3: cancel is idempotent. Applying it twice yields the same state as
once; on a pending or running run it reports cancelled (both times), sets
the cancellation flag, and a drain step to status cancelled preserving both
counters exists; on a terminal run it is a no-op reporting the existing
terminal status; in particular on an already cancelled run it reports
cancelled and leaves the counters untouched. -/
theorem cancelRun_idempotent (s : EngineState) :
    (cancelStep (cancelStep s).1).1 = (cancelStep s).1
    ∧ ((s.status = RunStatus.pending ∨ s.status = RunStatus.running) →
        (cancelStep s).2 = RunStatus.cancelled
        ∧ (cancelStep (cancelStep s).1).2 = RunStatus.cancelled
        ∧ (cancelStep s).1.cancel_requested = true
        ∧ ∃ u : EngineState, Step (cancelStep s).1 u
            ∧ u.status = RunStatus.cancelled
            ∧ u.completed_items = s.completed_items
            ∧ u.failed_items = s.failed_items)
    ∧ (isTerminal s.status = true → cancelStep s = (s, s.status))
    ∧ (s.status = RunStatus.cancelled →
        cancelStep s = (s, RunStatus.cancelled)
        ∧ (cancelStep s).1.completed_items = s.completed_items
        ∧ (cancelStep s).1.failed_items = s.failed_items) := by
  by_cases ht : isTerminal s.status = true
  · refine ⟨?_, ?_, ?_, ?_⟩
    · simp [cancelStep, ht]
    · intro hp
      rcases hp with hp | hp
      · rw [not_terminal_of_pending hp] at ht; cases ht
      · rw [not_terminal_of_running hp] at ht; cases ht
    · intro _; simp [cancelStep, ht]
    · intro hc
      refine ⟨?_, ?_, ?_⟩
      · simp [cancelStep, hc, isTerminal]
      · simp [cancelStep, ht]
      · simp [cancelStep, ht]
  · have ht2 : isTerminal ({ s with cancel_requested := true } : EngineState).status = true
        ↔ isTerminal s.status = true := Iff.rfl
    refine ⟨?_, ?_, ?_, ?_⟩
    · simp [cancelStep, ht]
    · intro hp
      refine ⟨by simp [cancelStep, ht], by simp [cancelStep, ht], by simp [cancelStep, ht], ?_⟩
      refine ⟨{ { s with cancel_requested := true } with
                  status := RunStatus.cancelled, completed_at := some 0 }, ?_, rfl, rfl, rfl⟩
      have hstat : ({ s with cancel_requested := true } : EngineState).status =
          RunStatus.pending ∨
          ({ s with cancel_requested := true } : EngineState).status =
          RunStatus.running := hp
      have := Step.finishCancelled { s with cancel_requested := true } 0 rfl hstat
      simpa [cancelStep, ht] using this
    · intro h2; exact absurd h2 ht
    · intro hc; rw [hc] at ht; simp [isTerminal] at ht

/-- C4: for every known run, getStatus succeeds and reports
progress_percentage = completed_items / total_items * 100, equal to 0 when
total_items is 0; failed items do not contribute to progress. -/
theorem getStatus_progress (reg : RunRegistry) (runId : String)
    (run : EngineState) (h : lookupRun reg runId = some run) :
    ∃ v : RunStatusView, getStatus reg runId = Except.ok v
      ∧ v.progress_percentage =
          (if run.total_items = 0 then 0
           else ((run.completed_items : ℚ) / (run.total_items : ℚ)) * 100)
      ∧ (run.total_items = 0 → v.progress_percentage = 0)
      ∧ ∀ x : Nat, progressPercentage { run with failed_items := x } =
          progressPercentage run := by
  have hg : getStatus reg runId =
      Except.ok
        { run_id := runId
          status := run.status
          total_items := run.total_items
          completed_items := run.completed_items
          failed_items := run.failed_items
          progress_percentage := progressPercentage run
          created_at := run.created_at
          started_at := run.started_at
          completed_at := run.completed_at } := by
    unfold getStatus
    rw [h]
  have hp : progressPercentage run =
      (if run.total_items = 0 then 0
       else ((run.completed_items : ℚ) / (run.total_items : ℚ)) * 100) := by
    unfold progressPercentage
    by_cases h0 : run.total_items = 0
    · simp [h0]
    · rw [if_neg h0, if_neg h0]
      ring
  refine ⟨_, hg, hp, ?_, ?_⟩
  · intro h0
    rw [hp, if_pos h0]
  · intro x
    rfl

/-- Witness for C4: the status formula on a concrete running run with one
completed and one failed item out of four. -/
theorem getStatus_progress_check :
    lookupRun regStatus "run_1" = some stRunning
    ∧ ∃ v : RunStatusView, getStatus regStatus "run_1" = Except.ok v
      ∧ v.progress_percentage =
          (if stRunning.total_items = 0 then 0
           else ((stRunning.completed_items : ℚ) / (stRunning.total_items : ℚ)) * 100)
      ∧ (stRunning.total_items = 0 → v.progress_percentage = 0)
      ∧ ∀ x : Nat, progressPercentage { stRunning with failed_items := x } =
          progressPercentage stRunning :=
  ⟨by decide, getStatus_progress regStatus "run_1" stRunning (by decide)⟩

/-- C5: for every known run that has produced at least one
EvaluationResult, getResults succeeds and returns exactly the results
produced so far, whatever the run's status — so partial results stay
queryable while running and after failure or cancellation, not only for
completed runs. -/
theorem getResults_partial_queryable (reg : RunRegistry) (runId : String)
    (run : EngineState) (h : lookupRun reg runId = some run)
    (hne : resultsFor reg runId ≠ []) :
    ∃ out : RunResults, getResults reg runId = Except.ok out
      ∧ out.evaluation_results = resultsFor reg runId
      ∧ out.evaluation_results ≠ []
      ∧ out.status = run.status
      ∧ out.completed_items = run.completed_items
      ∧ out.failed_items = run.failed_items := by
  have hg : getResults reg runId =
      Except.ok
        { run_id := runId
          status := run.status
          metrics := run.metrics
          total_items := run.total_items
          completed_items := run.completed_items
          failed_items := run.failed_items
          evaluation_results := resultsFor reg runId } := by
    unfold getResults
    rw [h]
  exact ⟨_, hg, rfl, hne, rfl, rfl, rfl⟩

/-- Witness for C5: the partial result of a cancelled run stays
queryable. -/
theorem getResults_partial_queryable_check :
    lookupRun regResults "run_9" = some stCancelled
    ∧ resultsFor regResults "run_9" ≠ []
    ∧ stCancelled.status = RunStatus.cancelled
    ∧ ∃ out : RunResults, getResults regResults "run_9" = Except.ok out
      ∧ out.evaluation_results = resultsFor regResults "run_9"
      ∧ out.evaluation_results ≠ []
      ∧ out.status = stCancelled.status
      ∧ out.completed_items = stCancelled.completed_items
      ∧ out.failed_items = stCancelled.failed_items :=
  ⟨by decide, by decide, rfl,
    getResults_partial_queryable regResults "run_9" stCancelled (by decide) (by decide)⟩

/-- C6: submitting a run whose configuration resolves immediately yields the
pending record: status pending, zero counts, null metrics, created_at set,
no started_at or completed_at — dataset enumeration and execution are later
`Step`s off the caller's path. -/
theorem submitRun_pending_record (registry : List String)
    (cfg : ExperimentConfig) (t : Nat)
    (h : resolvableConfig registry cfg = true) :
    ∃ r : EngineState, submit registry cfg t = Except.ok r
      ∧ r.status = RunStatus.pending
      ∧ r.total_items = 0
      ∧ r.completed_items = 0
      ∧ r.failed_items = 0
      ∧ r.metrics = none
      ∧ r.created_at = t
      ∧ r.started_at = none
      ∧ r.completed_at = none := by
  refine ⟨initialState t, ?_, rfl, rfl, rfl, rfl, rfl, rfl, rfl, rfl⟩
  unfold submit
  rw [h]
  rfl

/-- Witness for C6: a concrete resolvable configuration. -/
theorem submitRun_pending_record_check :
    resolvableConfig ["exact_match", "latency"]
      { model_known := true, evaluator_names := ["exact_match"] } = true
    ∧ ∃ r : EngineState,
      submit ["exact_match", "latency"]
        { model_known := true, evaluator_names := ["exact_match"] } 5 = Except.ok r
      ∧ r.status = RunStatus.pending
      ∧ r.total_items = 0
      ∧ r.completed_items = 0
      ∧ r.failed_items = 0
      ∧ r.metrics = none
      ∧ r.created_at = 5
      ∧ r.started_at = none
      ∧ r.completed_at = none :=
  ⟨by decide,
    submitRun_pending_record ["exact_match", "latency"]
      { model_known := true, evaluator_names := ["exact_match"] } 5 (by decide)⟩

theorem runAttempts_always_timeout (invoker : Nat → InvokeOutcome)
    (h : ∀ k, invoker k = InvokeOutcome.timeout) :
    ∀ retriesLeft attempt : Nat,
      runAttempts invoker attempt retriesLeft =
        (InvokeOutcome.timeout, retriesLeft + 1) := by
  intro retriesLeft
  induction retriesLeft with
  | zero => intro a; simp [runAttempts, h a]
  | succ n ih =>
      intro a
      simp [runAttempts, h a, ih (a + 1)]

/-- C7: an item whose invoker always times out is attempted exactly
max_retries + 1 times — the recursion re-executes the same JobUnit, it
never enqueues a new one — and is then recorded as failed with is_success
false and a non-null error_message. -/
theorem retry_bound (invoker : Nat → InvokeOutcome)
    (evaluators : List (String × (String → Option ℚ)))
    (maxRetries itemId : Nat)
    (h : ∀ k, invoker k = InvokeOutcome.timeout) :
    (executeItem invoker evaluators maxRetries itemId).2 = maxRetries + 1
    ∧ (executeItem invoker evaluators maxRetries itemId).1.is_success = false
    ∧ (executeItem invoker evaluators maxRetries itemId).1.error_message ≠ none := by
  have hr := runAttempts_always_timeout invoker h maxRetries 0
  unfold executeItem
  rw [hr]
  simp [errorOf]

/-- Witness for C7: max_retries = 2 gives exactly 3 attempts and a failed
record, the scenario of spec section 8. -/
theorem retry_bound_check :
    (∀ k : Nat, (fun _ : Nat => InvokeOutcome.timeout) k = InvokeOutcome.timeout)
    ∧ (executeItem (fun _ => InvokeOutcome.timeout) [] 2 7).2 = 2 + 1
    ∧ (executeItem (fun _ => InvokeOutcome.timeout) [] 2 7).1.is_success = false :=
  ⟨fun _ => rfl,
    (retry_bound (fun _ => InvokeOutcome.timeout) [] 2 7 (fun _ => rfl)).1,
    (retry_bound (fun _ => InvokeOutcome.timeout) [] 2 7 (fun _ => rfl)).2.1⟩

/-- Counterexample for C8: a non-OK response whose body carries
`detail: ""` — the detail field is present, yet `errorData.detail || ...`
is falsy on the empty string, so the code reports the HTTP fallback, not
the detail. -/
theorem claimedRequestErrorRule_false : ¬ ClaimedRequestErrorRule := by
  intro h
  exact absurd
    (h { ok := false, status := 500, parsedBody := none,
         parseErrorMessage := "", errorDetail := some "" } rfl)
    (by decide)

/-- C8 (amended): request always returns an ApiResponse holding exactly one
of data or error and never throws; on an OK response the data is the parsed
body; on a non-OK response the error message is the body's detail field
when present and non-empty, otherwise the HTTP fallback. -/
theorem apiClient_request_total (T : Type) (o : FetchOutcome T) :
    ((request T o).data.isSome ↔ (request T o).error = none)
    ∧ (∀ r : HttpResponseShape T, o = FetchOutcome.response r → r.ok = true →
        (request T o).data = r.parsedBody)
    ∧ (∀ r : HttpResponseShape T, o = FetchOutcome.response r → r.ok = false →
        (request T o).error = some (match r.errorDetail with
          | some d => if d = "" then httpErrorMessage r.status else d
          | none => httpErrorMessage r.status)) := by
  refine ⟨?_, ?_, ?_⟩
  · cases o with
    | fetchRejected m => simp [request]
    | thrownNonError => simp [request]
    | response r =>
        by_cases hok : r.ok = true
        · cases hb : r.parsedBody with
          | none => simp [request, hok, hb]
          | some d => simp [request, hok, hb]
        · rw [Bool.not_eq_true] at hok
          cases hd : r.errorDetail with
          | none => simp [request, hok, hd]
          | some d =>
              by_cases he : d = ""
              · simp [request, hok, hd, he]
              · simp [request, hok, hd, he]
  · intro r hre hok
    subst hre
    cases hb : r.parsedBody with
    | none => simp [request, hok, hb]
    | some d => simp [request, hok, hb]
  · intro r hre hok
    subst hre
    cases hd : r.errorDetail with
    | none => simp [request, hok, hd]
    | some d =>
        by_cases he : d = ""
        · simp [request, hok, hd, he]
        · simp [request, hok, hd, he]

/-- Counterexample for C9: a response with an empty-string error message —
the error field is set, yet `if (response.error)` is falsy on the empty
string, so the hook proceeds and does modify the runs list. -/
theorem claimedCancelErrorFrame_false : ¬ ClaimedCancelErrorFrame := by
  intro h
  exact absurd (h { data := none, error := some "" } [runRecA] "run_1" rfl) (by decide)

theorem cancelRunUpdate_pointwise (runs : List RunRecord) (runId : String) :
    List.Forall₂ (fun old new =>
        (old.id = runId → new = { old with status := RunStatus.cancelled })
        ∧ (old.id ≠ runId → new = old))
      runs (cancelRunUpdate runs runId) := by
  induction runs with
  | nil => exact List.Forall₂.nil
  | cons a t ih =>
      simp only [cancelRunUpdate, List.map_cons]
      refine List.Forall₂.cons ⟨?_, ?_⟩ ih
      · intro ha; simp [ha]
      · intro ha; simp [ha]

/-- C9 (amended): when the hook's truthiness guard on response.error passes
(error absent or empty), the runs list is mapped so the run whose id equals
runId gets status cancelled with every other field unchanged and every
other run is untouched; when the response carries a non-empty error
message, the hook throws before setRuns and the list is not modified. -/
theorem cancelRun_local_update (resp : ApiResponse CancelResponseBody)
    (runs : List RunRecord) (runId : String) :
    (isTruthyError resp.error = true → cancelRunEffect resp runs runId = runs)
    ∧ (isTruthyError resp.error = false →
        List.Forall₂ (fun old new =>
            (old.id = runId → new = { old with status := RunStatus.cancelled })
            ∧ (old.id ≠ runId → new = old))
          runs (cancelRunEffect resp runs runId)) := by
  constructor
  · intro ht
    simp [cancelRunEffect, ht]
  · intro ht
    have he : cancelRunEffect resp runs runId = cancelRunUpdate runs runId := by
      simp [cancelRunEffect, ht]
    rw [he]
    exact cancelRunUpdate_pointwise runs runId

/-- Counterexample for C10: two versions sharing the version string "v1" —
after deploying "v1" both are marked deployed, so more than one version is
marked deployed. -/
theorem claimedAtMostOneDeployed_false : ¬ ClaimedAtMostOneDeployed := by
  intro h
  exact absurd (h [versionDupA, versionDupB] "v1").2 (by decide)

theorem deployedCount_nodup_le_one (versions : List PromptVersionRec)
    (version : String)
    (h : (versions.map (fun v => v.version)).Nodup) :
    deployedCount (deployVersionUpdate versions version) ≤ 1 := by
  induction versions with
  | nil => simp [deployedCount, deployVersionUpdate]
  | cons a t ih =>
      rw [List.map_cons, List.nodup_cons] at h
      simp only [deployVersionUpdate, List.map_cons, deployedCount, List.countP_cons]
      by_cases ha : a.version = version
      · have h0 : List.countP (fun v => v.is_deployed)
            (List.map (fun v => { v with is_deployed := v.version == version })
              t) = 0 := by
          rw [List.countP_eq_zero]
          intro b hb
          rw [List.mem_map] at hb
          obtain ⟨c, hc, rfl⟩ := hb
          simp only [decide_eq_true_eq]
          intro hcv
          rw [beq_iff_eq] at hcv
          exact h.1 (List.mem_map.mpr ⟨c, hc, hcv.trans ha.symm⟩)
        rw [h0]
        split <;> omega
      · have hrest := ih h.2
        simp only [deployVersionUpdate, deployedCount] at hrest
        simpa [ha] using hrest

/-- C10 (amended): after deployVersion, a version is marked deployed iff
its version string equals the deployed version; hence, whenever the listed
version strings are pairwise distinct, at most one version is marked
deployed afterwards, regardless of how many were marked deployed before. -/
theorem deployVersion_unique_deploy (versions : List PromptVersionRec)
    (version : String) :
    (∀ v2 ∈ deployVersionUpdate versions version,
        v2.is_deployed = true ↔ v2.version = version)
    ∧ ((versions.map (fun v => v.version)).Nodup →
        deployedCount (deployVersionUpdate versions version) ≤ 1) := by
  constructor
  · intro v2 hv2
    rw [deployVersionUpdate, List.mem_map] at hv2
    obtain ⟨c, hc, rfl⟩ := hv2
    simp [beq_iff_eq]
  · exact deployedCount_nodup_le_one versions version

end AIDev
